import Mathlib

/-!
A shallow embedding of `src/btc-pipeline.py`: a pipe-and-filter pipeline that
validates a BTC transaction, authenticates its user against an injected
directory, converts BTC to a fiat currency, computes a fixed fee, and appends
a ledger record to a JSON store.

Modelling conventions:
- Python floats are embedded as rationals (`ℚ`); `round(x, 2)` is embedded as
  `round2`, rounding to 2 decimals with ties to even (Python's documented
  rounding mode).
- The processing context (a Python dict with a known key set) is a structure
  of `Option` fields; a missing key is `none`.
- Each filter's `process` is a function `State → State × Option Err`: on
  failure it returns the state as mutated so far together with the raised
  error, matching Python's in-place mutation before an exception propagates.
- `datetime.utcnow().isoformat()` values are external clock reads; only their
  presence in the context is observable here, so timestamps are `Option Unit`.
- The JSON file consumed by the storage filter is modelled by `Store`:
  `missing` (no file), `unparsable` (content that raises `JSONDecodeError`),
  or `records l` (content parsing to a list of ledger records).
-/

unseal Rat.add Rat.mul Rat.sub Rat.inv Rat.ofScientific

namespace BtcPipeline

/-- Python `str.upper()`, defined structurally on the character list so that
it computes by kernel reduction (ASCII case mapping, which is all the
currency codes need). -/
def pyUpper (s : String) : String := ⟨s.data.map Char.toUpper⟩

/-- Python `str.strip()`: drop leading and trailing whitespace, defined
structurally on the character list. -/
def pyStrip (s : String) : String :=
  ⟨((s.data.dropWhile Char.isWhitespace).reverse.dropWhile
      Char.isWhitespace).reverse⟩

/-- Python `round(x, 2)` scaled: round a rational to the nearest integer with
ties going to the even integer. -/
def roundHalfEven (x : ℚ) : ℤ :=
  let f := ⌊x⌋
  let r := x - f
  if r < 1/2 then f
  else if 1/2 < r then f + 1
  else if f % 2 = 0 then f else f + 1

/-- Embedding of Python `round(x, 2)`. -/
def round2 (x : ℚ) : ℚ := (roundHalfEven (100 * x) : ℚ) / 100

/-- `@dataclass Transaction` (`btc_amount` is `Option` because the code checks
`tx.btc_amount is None`). -/
structure Transaction where
  user_id : String
  btc_amount : Option ℚ
  base_currency : String
deriving DecidableEq

/-- An authenticated user profile: an opaque mapping, embedded as an
association list (Python dict truthiness: empty means falsy). -/
def Profile := List (String × String)
deriving DecidableEq

/-- The `fx_used` audit record written by the transformation filter. -/
structure FxUsed where
  btc_usd : ℚ
  usd_to_eur : ℚ
  usd_to_gbp : ℚ
  applied : ℚ
deriving DecidableEq

/-- The persisted ledger record built by `StorageFilter.process`
(`timestamp` is an opaque clock read). -/
structure LedgerRecord where
  timestamp : Unit
  transaction : Transaction
  user : Option Profile
  fiat_amount : Option ℚ
  fee : Option ℚ
  total : Option ℚ
  fx_used : Option FxUsed
deriving DecidableEq

/-- The processing context dict; each known key is an `Option` field,
`none` meaning the key is absent. -/
structure Ctx where
  transaction : Option Transaction := none
  validated_at : Option Unit := none
  user : Option Profile := none
  authenticated_at : Option Unit := none
  fiat_amount : Option ℚ := none
  fx_used : Option FxUsed := none
  transformed_at : Option Unit := none
  fee : Option ℚ := none
  total : Option ℚ := none
  fee_calculated_at : Option Unit := none
  persisted : Option Bool := none
  storage_path : Option String := none
  status : Option String := none
deriving DecidableEq

/-- The JSON file at the storage path: absent, present but not valid JSON,
or parsing to a list of records. -/
inductive Store where
  | missing : Store
  | unparsable : Store
  | records : List LedgerRecord → Store
deriving DecidableEq

/-- The mutable world a filter sees: the context dict plus the store file. -/
structure State where
  ctx : Ctx
  store : Store := Store.missing
deriving DecidableEq

/-- The errors raised by the pipeline, one constructor per raise site
(`ValueError`/`PermissionError`/`KeyError`/`TypeError` in the source; names
follow the spec's taxonomy). -/
inductive Err where
  | missingTransaction : Err
  | invalidUser : Err
  | invalidAmount : Err
  | unsupportedCurrency : String → Err
  | notAuthenticated : Err
  | unsupportedCurrencyFx : String → Err
  | unsupportedCurrencyForFee : Err
  | keyError : String → Err
  | typeError : String → Err
deriving DecidableEq

/-- A filter's `process` method: returns the (possibly mutated) state and,
on failure, the raised error. -/
def StageFn := State → State × Option Err

/-- `ValidationFilter.SUPPORTED`. -/
def ValidationFilter.SUPPORTED : List String := ["USD", "EUR", "GBP"]

/-- `ValidationFilter.process`: checks transaction presence, non-empty
`user_id`, positive `btc_amount`, then normalizes `base_currency` in place
(upper-case then trim) and checks it against the supported set. -/
def ValidationFilter.process : StageFn := fun s =>
  match s.ctx.transaction with
  | none => (s, some Err.missingTransaction)
  | some tx =>
    if tx.user_id = "" then (s, some Err.invalidUser)
    else
      match tx.btc_amount with
      | none => (s, some Err.invalidAmount)
      | some a =>
        if a ≤ 0 then (s, some Err.invalidAmount)
        else
          let cur := pyStrip (pyUpper tx.base_currency)
          let tx2 := { tx with base_currency := cur }
          if cur ∈ ValidationFilter.SUPPORTED then
            ({ s with ctx := { s.ctx with
                transaction := some tx2,
                validated_at := some () } }, none)
          else
            ({ s with ctx := { s.ctx with transaction := some tx2 } },
             some (Err.unsupportedCurrency cur))

/-- `AuthFilter.process`: looks `user_id` up in the injected directory;
`if not user` fails, so both an absent entry and an empty (falsy) profile
raise `NotAuthenticated`. -/
def AuthFilter.process (users_db : String → Option Profile) : StageFn := fun s =>
  match s.ctx.transaction with
  | none => (s, some (Err.keyError "transaction"))
  | some tx =>
    match users_db tx.user_id with
    | none => (s, some Err.notAuthenticated)
    | some p =>
      if p = [] then (s, some Err.notAuthenticated)
      else ({ s with ctx := { s.ctx with
                user := some p,
                authenticated_at := some () } }, none)

/-- `FxService`: the injected, immutable rate set. -/
structure FxService where
  btc_usd : ℚ := 68000
  usd_to_eur : ℚ := 92/100
  usd_to_gbp : ℚ := 78/100
deriving DecidableEq

/-- The dict `{"amount": ..., "fx": ...}` returned by `btc_to_currency`. -/
structure FxResult where
  amount : ℚ
  fx : ℚ
deriving DecidableEq

/-- `FxService.btc_to_currency`. -/
def FxService.btc_to_currency (svc : FxService) (btc_amount : ℚ)
    (currency : String) : Except Err FxResult :=
  let usd_value := btc_amount * svc.btc_usd
  if currency = "USD" then Except.ok ⟨usd_value, 1⟩
  else if currency = "EUR" then
    Except.ok ⟨usd_value * svc.usd_to_eur, svc.usd_to_eur⟩
  else if currency = "GBP" then
    Except.ok ⟨usd_value * svc.usd_to_gbp, svc.usd_to_gbp⟩
  else Except.error (Err.unsupportedCurrencyFx currency)

/-- `TransformationFilter.process`: converts via the FX engine, rounds the
fiat amount to 2 decimals, and records the rate set used. A `none`
`btc_amount` reaching the arithmetic is Python's `TypeError`. -/
def TransformationFilter.process (svc : FxService) : StageFn := fun s =>
  match s.ctx.transaction with
  | none => (s, some (Err.keyError "transaction"))
  | some tx =>
    match tx.btc_amount with
    | none => (s, some (Err.typeError "unsupported operand"))
    | some a =>
      match svc.btc_to_currency a tx.base_currency with
      | Except.error e => (s, some e)
      | Except.ok r =>
        ({ s with ctx := { s.ctx with
            fiat_amount := some (round2 r.amount),
            fx_used := some ⟨svc.btc_usd, svc.usd_to_eur, svc.usd_to_gbp, r.fx⟩,
            transformed_at := some () } }, none)

/-- `FeeFilter.FIXED_FEE_USD = 5.00`. -/
def FeeFilter.FIXED_FEE_USD : ℚ := 5

/-- `FeeFilter.process`: picks the per-currency multiplier, rounds the fee,
writes `fee`, then `total = round(fiat_amount + fee, 2)`. The `fee` key is
written before `fiat_amount` is read, so a missing `fiat_amount` leaves
`fee` set and raises `KeyError`. -/
def FeeFilter.process (svc : FxService) : StageFn := fun s =>
  match s.ctx.transaction with
  | none => (s, some (Err.keyError "transaction"))
  | some tx =>
    let feeE : Except Err ℚ :=
      if tx.base_currency = "USD" then Except.ok FeeFilter.FIXED_FEE_USD
      else if tx.base_currency = "EUR" then
        Except.ok (FeeFilter.FIXED_FEE_USD * svc.usd_to_eur)
      else if tx.base_currency = "GBP" then
        Except.ok (FeeFilter.FIXED_FEE_USD * svc.usd_to_gbp)
      else Except.error Err.unsupportedCurrencyForFee
    match feeE with
    | Except.error e => (s, some e)
    | Except.ok raw =>
      let fee := round2 raw
      match s.ctx.fiat_amount with
      | none =>
        ({ s with ctx := { s.ctx with fee := some fee } },
         some (Err.keyError "fiat_amount"))
      | some v =>
        ({ s with ctx := { s.ctx with
            fee := some fee,
            total := some (round2 (v + fee)),
            fee_calculated_at := some () } }, none)

/-- The ledger record snapshot built at the top of `StorageFilter.process`. -/
def StorageFilter.mkRecord (ctx : Ctx) (tx : Transaction) : LedgerRecord :=
  ⟨(), tx, ctx.user, ctx.fiat_amount, ctx.fee, ctx.total, ctx.fx_used⟩

/-- The read half of `StorageFilter.process`: a missing file or a
`JSONDecodeError` yields the empty list. -/
def StorageFilter.readExisting : Store → List LedgerRecord
  | Store.missing => []
  | Store.unparsable => []
  | Store.records l => l

/-- `StorageFilter.process`: snapshot the context into a record, read the
existing sequence (empty when missing/unparsable), append, rewrite. -/
def StorageFilter.process (path : String) : StageFn := fun s =>
  match s.ctx.transaction with
  | none => (s, some (Err.keyError "transaction"))
  | some tx =>
    let record := StorageFilter.mkRecord s.ctx tx
    let existing := StorageFilter.readExisting s.store
    ({ ctx := { s.ctx with persisted := some true, storage_path := some path },
       store := Store.records (existing ++ [record]) }, none)

/-- `Pipeline.run`: fold the state through the filters in order; the first
error aborts and propagates; on full success write `status = "SUCCESS"`. -/
def Pipeline.run : List StageFn → State → State × Option Err
  | [], s => ({ s with ctx := { s.ctx with status := some "SUCCESS" } }, none)
  | f :: fs, s =>
    match f s with
    | (s2, none) => Pipeline.run fs s2
    | (s2, some e) => (s2, some e)

/-- The standard filter list built in the example entry point:
validation, auth, transformation, fee, storage. -/
def standardFilters (users_db : String → Option Profile) (svc : FxService)
    (path : String) : List StageFn :=
  [ValidationFilter.process, AuthFilter.process users_db,
   TransformationFilter.process svc, FeeFilter.process svc,
   StorageFilter.process path]

/-- One full pipeline run with the standard filter list. -/
def runStandard (users_db : String → Option Profile) (svc : FxService)
    (path : String) (s : State) : State × Option Err :=
  Pipeline.run (standardFilters users_db svc path) s

/-- The store left behind by a sequence of pipeline runs, each on a fresh
context, all against the same sink. -/
def runSeq (users_db : String → Option Profile) (svc : FxService)
    (path : String) : List Ctx → Store → Store
  | [], st => st
  | c :: cs, st =>
    runSeq users_db svc path cs (runStandard users_db svc path ⟨c, st⟩).1.store

/-- Whether every run in the sequence succeeds (no filter raises). -/
def allOk (users_db : String → Option Profile) (svc : FxService)
    (path : String) : List Ctx → Store → Bool
  | [], _ => true
  | c :: cs, st =>
    match runStandard users_db svc path ⟨c, st⟩ with
    | (s2, none) => allOk users_db svc path cs s2.store
    | (_, some _) => false

/-- The per-currency multiplier table as the spec states it: `1.0` for USD,
the respective cross-rate for EUR/GBP (and an arbitrary junk value outside
the supported set, where the spec assigns none). -/
def appliedRate (svc : FxService) (c : String) : ℚ :=
  if c = "USD" then 1
  else if c = "EUR" then svc.usd_to_eur
  else if c = "GBP" then svc.usd_to_gbp
  else 0

theorem roundHalfEven_intCast (n : ℤ) : roundHalfEven (n : ℚ) = n := by
  unfold roundHalfEven
  norm_num

theorem round2_shape (x : ℚ) : ∃ k : ℤ, round2 x = (k : ℚ) / 100 :=
  ⟨roundHalfEven (100 * x), rfl⟩

theorem round2_div100 (k : ℤ) : round2 ((k : ℚ) / 100) = (k : ℚ) / 100 := by
  unfold round2
  have h : (100 : ℚ) * ((k : ℚ) / 100) = (k : ℚ) := by ring
  rw [h, roundHalfEven_intCast]

/-- Rounding a sum of two already-rounded quantities changes nothing: both
are integer multiples of `1/100`. -/
theorem round2_add_rounded (x y : ℚ) :
    round2 (round2 x + round2 y) = round2 x + round2 y := by
  obtain ⟨k, hk⟩ := round2_shape x
  obtain ⟨m, hm⟩ := round2_shape y
  rw [hk, hm]
  have h : (k : ℚ) / 100 + (m : ℚ) / 100 = ((k + m : ℤ) : ℚ) / 100 := by
    push_cast
    ring
  rw [h, round2_div100]

theorem run_nil (s : State) :
    Pipeline.run [] s =
      ({ s with ctx := { s.ctx with status := some "SUCCESS" } }, none) := rfl

theorem run_cons_ok {f : StageFn} {fs : List StageFn} {s s2 : State}
    (h : f s = (s2, none)) :
    Pipeline.run (f :: fs) s = Pipeline.run fs s2 := by
  simp [Pipeline.run, h]

theorem run_cons_err {f : StageFn} {fs : List StageFn} {s s2 : State} {e : Err}
    (h : f s = (s2, some e)) :
    Pipeline.run (f :: fs) s = (s2, some e) := by
  simp [Pipeline.run, h]

theorem run_success_status {fs : List StageFn} {s out : State}
    (h : Pipeline.run fs s = (out, none)) :
    out.ctx.status = some "SUCCESS" := by
  induction fs generalizing s with
  | nil =>
    rw [run_nil] at h
    cases h
    rfl
  | cons f fs ih =>
    rcases hf : f s with ⟨s2, e⟩
    cases e with
    | none => exact ih (by rw [run_cons_ok hf] at h; exact h)
    | some e =>
      rw [run_cons_err hf] at h
      cases h

theorem run_success_decomp {f : StageFn} {fs : List StageFn} {s out : State}
    (h : Pipeline.run (f :: fs) s = (out, none)) :
    ∃ s2, f s = (s2, none) ∧ Pipeline.run fs s2 = (out, none) := by
  rcases hf : f s with ⟨s2, e⟩
  cases e with
  | none => exact ⟨s2, rfl, by rw [run_cons_ok hf] at h; exact h⟩
  | some e =>
    rw [run_cons_err hf] at h
    cases h

/-- C2: the FX engine returns amount `btc × btc_usd` at rate 1 for USD,
the EUR/GBP cross-rate conversions with their applied rates, and an
`UnsupportedCurrency` error for every other code. -/
theorem btc_to_currency_spec (svc : FxService) (a : ℚ) (c : String) :
    (c = "USD" →
      svc.btc_to_currency a c = Except.ok ⟨a * svc.btc_usd, 1⟩) ∧
    (c = "EUR" →
      svc.btc_to_currency a c =
        Except.ok ⟨a * svc.btc_usd * svc.usd_to_eur, svc.usd_to_eur⟩) ∧
    (c = "GBP" →
      svc.btc_to_currency a c =
        Except.ok ⟨a * svc.btc_usd * svc.usd_to_gbp, svc.usd_to_gbp⟩) ∧
    (c ≠ "USD" → c ≠ "EUR" → c ≠ "GBP" →
      svc.btc_to_currency a c =
        Except.error (Err.unsupportedCurrencyFx c)) := by
  refine ⟨?_, ?_, ?_, ?_⟩ <;> intro h
  · simp [FxService.btc_to_currency, h]
  · simp [FxService.btc_to_currency, h]
  · simp [FxService.btc_to_currency, h]
  · intro h2 h3
    simp [FxService.btc_to_currency, h, h2, h3]

theorem btc_to_currency_spec_witness :
    FxService.btc_to_currency {} 2 "EUR" =
      Except.ok ⟨2 * (68000 : ℚ) * (92/100), 92/100⟩ :=
  (btc_to_currency_spec {} 2 "EUR").2.1 rfl

/-- C9: a missing or unparsable existing store is treated as the empty
sequence: the storage filter succeeds and leaves exactly the one new
record. -/
theorem storage_tolerates_bad_store (path : String) (s : State)
    (tx : Transaction) (ht : s.ctx.transaction = some tx)
    (hst : s.store = Store.missing ∨ s.store = Store.unparsable) :
    StorageFilter.process path s =
      ({ ctx := { s.ctx with
            persisted := some true,
            storage_path := some path },
         store := Store.records [StorageFilter.mkRecord s.ctx tx] }, none) := by
  rcases hst with hst | hst <;>
    simp [StorageFilter.process, StorageFilter.readExisting, ht, hst]

theorem storage_tolerates_bad_store_witness :
    StorageFilter.process "t.json"
        ⟨{ transaction := some ⟨"u123", some 1, "USD"⟩ }, Store.unparsable⟩ =
      ({ ctx := {
            transaction := some ⟨"u123", some 1, "USD"⟩,
            persisted := some true,
            storage_path := some "t.json" },
         store := Store.records
           [StorageFilter.mkRecord
             { transaction := some ⟨"u123", some 1, "USD"⟩ }
             ⟨"u123", some 1, "USD"⟩] }, none) :=
  storage_tolerates_bad_store "t.json"
    ⟨{ transaction := some ⟨"u123", some 1, "USD"⟩ }, Store.unparsable⟩
    ⟨"u123", some 1, "USD"⟩ rfl (Or.inr rfl)

/-- C10: a directory entry holding an empty (falsy) profile still fails
authentication: `if not user` rejects both a missing entry and an empty
one. -/
theorem empty_profile_not_authenticated
    (users_db : String → Option Profile) (s : State) (tx : Transaction)
    (ht : s.ctx.transaction = some tx)
    (hdb : users_db tx.user_id = some []) :
    AuthFilter.process users_db s = (s, some Err.notAuthenticated) := by
  simp [AuthFilter.process, ht, hdb]

theorem empty_profile_not_authenticated_witness :
    AuthFilter.process (fun _ => some [])
        ⟨{ transaction := some ⟨"u123", some 1, "USD"⟩ }, Store.missing⟩ =
      (⟨{ transaction := some ⟨"u123", some 1, "USD"⟩ }, Store.missing⟩,
        some Err.notAuthenticated) :=
  empty_profile_not_authenticated (fun _ => some [])
    ⟨{ transaction := some ⟨"u123", some 1, "USD"⟩ }, Store.missing⟩
    ⟨"u123", some 1, "USD"⟩ rfl rfl

/-- C4: the validation rules fire in order — missing transaction, empty
user id, missing or non-positive amount, then normalization in place
followed by the supported-set check; on success the context gains a
validation timestamp and the transaction carries the normalized code. -/
theorem validation_rules_spec (s : State) :
    (s.ctx.transaction = none →
      ValidationFilter.process s = (s, some Err.missingTransaction)) ∧
    (∀ tx, s.ctx.transaction = some tx → tx.user_id = "" →
      ValidationFilter.process s = (s, some Err.invalidUser)) ∧
    (∀ tx, s.ctx.transaction = some tx → tx.user_id ≠ "" →
      tx.btc_amount = none →
      ValidationFilter.process s = (s, some Err.invalidAmount)) ∧
    (∀ tx a, s.ctx.transaction = some tx → tx.user_id ≠ "" →
      tx.btc_amount = some a → a ≤ 0 →
      ValidationFilter.process s = (s, some Err.invalidAmount)) ∧
    (∀ tx a, s.ctx.transaction = some tx → tx.user_id ≠ "" →
      tx.btc_amount = some a → 0 < a →
      pyStrip (pyUpper tx.base_currency) ∉ ValidationFilter.SUPPORTED →
      ValidationFilter.process s =
        ({ s with ctx := { s.ctx with
            transaction :=
              some { tx with
                base_currency := pyStrip (pyUpper tx.base_currency) } } },
         some (Err.unsupportedCurrency (pyStrip (pyUpper tx.base_currency))))) ∧
    (∀ tx a, s.ctx.transaction = some tx → tx.user_id ≠ "" →
      tx.btc_amount = some a → 0 < a →
      pyStrip (pyUpper tx.base_currency) ∈ ValidationFilter.SUPPORTED →
      ValidationFilter.process s =
        ({ s with ctx := { s.ctx with
            transaction :=
              some { tx with
                base_currency := pyStrip (pyUpper tx.base_currency) },
            validated_at := some () } }, none)) := by
  refine ⟨?_, ?_, ?_, ?_, ?_, ?_⟩
  · intro h
    simp [ValidationFilter.process, h]
  · intro tx ht hu
    simp [ValidationFilter.process, ht, hu]
  · intro tx ht hu ha
    simp [ValidationFilter.process, ht, hu, ha]
  · intro tx a ht hu ha hle
    simp [ValidationFilter.process, ht, hu, ha, hle]
  · intro tx a ht hu ha hpos hcur
    simp [ValidationFilter.process, ht, hu, ha, not_le.mpr hpos, hcur]
  · intro tx a ht hu ha hpos hcur
    simp [ValidationFilter.process, ht, hu, ha, not_le.mpr hpos, hcur]

theorem validation_rules_spec_witness :
    (({ ctx := { transaction := some ⟨"u123", some 1, " eur"⟩ } } :
        State).ctx.transaction = some ⟨"u123", some 1, " eur"⟩) ∧
    ValidationFilter.process
        { ctx := { transaction := some ⟨"u123", some 1, " eur"⟩ } } =
      ({ ctx := { transaction := some ⟨"u123", some 1, "EUR"⟩,
                  validated_at := some () } }, none) := by
  refine ⟨rfl, ?_⟩
  have h := (validation_rules_spec
      { ctx := { transaction := some ⟨"u123", some 1, " eur"⟩ } }).2.2.2.2.2
      ⟨"u123", some 1, " eur"⟩ 1 rfl (by decide) rfl (by decide) (by decide)
  rw [h]
  decide

/-- C6: the fee stage's per-currency multiplier is exactly the `fx` field
the FX engine reports for the same currency: whenever the engine succeeds
with result `r`, the fee written is `round2 (5 * r.fx)`. -/
theorem fee_matches_engine_rate (svc : FxService) (s : State)
    (tx : Transaction) (v a : ℚ) (r : FxResult)
    (ht : s.ctx.transaction = some tx) (hv : s.ctx.fiat_amount = some v)
    (hfx : svc.btc_to_currency a tx.base_currency = Except.ok r) :
    (FeeFilter.process svc s).2 = none ∧
    (FeeFilter.process svc s).1.ctx.fee =
      some (round2 (FeeFilter.FIXED_FEE_USD * r.fx)) := by
  rcases r with ⟨ram, rfx⟩
  by_cases h1 : tx.base_currency = "USD"
  · simp [FxService.btc_to_currency, h1] at hfx
    constructor <;>
      simp [FeeFilter.process, ht, hv, h1, ← hfx.2, mul_one]
  · by_cases h2 : tx.base_currency = "EUR"
    · simp [FxService.btc_to_currency, h1, h2] at hfx
      constructor <;>
        simp [FeeFilter.process, ht, hv, h1, h2, ← hfx.2]
    · by_cases h3 : tx.base_currency = "GBP"
      · simp [FxService.btc_to_currency, h1, h2, h3] at hfx
        constructor <;>
          simp [FeeFilter.process, ht, hv, h1, h2, h3, ← hfx.2]
      · simp [FxService.btc_to_currency, h1, h2, h3] at hfx

theorem fee_matches_engine_rate_witness :
    (FeeFilter.process {}
        ⟨{ transaction := some ⟨"u123", some 1, "EUR"⟩,
           fiat_amount := some 62560 }, Store.missing⟩).2 = none ∧
    (FeeFilter.process {}
        ⟨{ transaction := some ⟨"u123", some 1, "EUR"⟩,
           fiat_amount := some 62560 }, Store.missing⟩).1.ctx.fee =
      some (round2 (FeeFilter.FIXED_FEE_USD * FxResult.fx ⟨62560, 92/100⟩)) :=
  fee_matches_engine_rate {}
    ⟨{ transaction := some ⟨"u123", some 1, "EUR"⟩,
       fiat_amount := some 62560 }, Store.missing⟩
    ⟨"u123", some 1, "EUR"⟩ 62560 1 ⟨62560, 92/100⟩ rfl rfl
    rfl

/-- The example user directory from the entry point (`USERS`). -/
def USERS : String → Option Profile := fun u =>
  if u = "u123" then some [("name", "Alice"), ("kyc_level", "basic")]
  else if u = "u456" then some [("name", "Bob"), ("kyc_level", "plus")]
  else none

theorem validation_preserves_status (s : State) :
    ((ValidationFilter.process s).1).ctx.status = s.ctx.status := by
  rcases ht : s.ctx.transaction with _ | tx
  · simp [ValidationFilter.process, ht]
  · by_cases hu : tx.user_id = ""
    · simp [ValidationFilter.process, ht, hu]
    · rcases ha : tx.btc_amount with _ | a
      · simp [ValidationFilter.process, ht, hu, ha]
      · by_cases hle : a ≤ 0
        · simp [ValidationFilter.process, ht, hu, ha, hle]
        · by_cases hcur :
              pyStrip (pyUpper tx.base_currency) ∈ ValidationFilter.SUPPORTED
          · simp [ValidationFilter.process, ht, hu, ha, hle, hcur]
          · simp [ValidationFilter.process, ht, hu, ha, hle, hcur]

theorem auth_preserves_status (users_db : String → Option Profile)
    (s : State) :
    ((AuthFilter.process users_db s).1).ctx.status = s.ctx.status := by
  rcases ht : s.ctx.transaction with _ | tx
  · simp [AuthFilter.process, ht]
  · rcases hdb : users_db tx.user_id with _ | p
    · simp [AuthFilter.process, ht, hdb]
    · by_cases hp : p = []
      · simp [AuthFilter.process, ht, hdb, hp]
      · simp [AuthFilter.process, ht, hdb, hp]

theorem transformation_preserves_status (svc : FxService) (s : State) :
    ((TransformationFilter.process svc s).1).ctx.status = s.ctx.status := by
  rcases ht : s.ctx.transaction with _ | tx
  · simp [TransformationFilter.process, ht]
  · rcases ha : tx.btc_amount with _ | a
    · simp [TransformationFilter.process, ht, ha]
    · rcases hr : svc.btc_to_currency a tx.base_currency with e | r
      · simp [TransformationFilter.process, ht, ha, hr]
      · simp [TransformationFilter.process, ht, ha, hr]

theorem fee_preserves_status (svc : FxService) (s : State) :
    ((FeeFilter.process svc s).1).ctx.status = s.ctx.status := by
  rcases ht : s.ctx.transaction with _ | tx
  · simp [FeeFilter.process, ht]
  · by_cases h1 : tx.base_currency = "USD" <;>
      by_cases h2 : tx.base_currency = "EUR" <;>
      by_cases h3 : tx.base_currency = "GBP" <;>
      rcases hv : s.ctx.fiat_amount with _ | v <;>
      simp [FeeFilter.process, ht, h1, h2, h3, hv]

theorem storage_preserves_status (path : String) (s : State) :
    ((StorageFilter.process path s).1).ctx.status = s.ctx.status := by
  rcases ht : s.ctx.transaction with _ | tx <;>
    simp [StorageFilter.process, ht]

theorem run_err_preserves_status {fs : List StageFn}
    (hpres : ∀ f ∈ fs, ∀ s0 : State, ((f s0).1).ctx.status = s0.ctx.status)
    {s out : State} {e : Err}
    (h : Pipeline.run fs s = (out, some e)) :
    out.ctx.status = s.ctx.status := by
  induction fs generalizing s with
  | nil =>
    rw [run_nil] at h
    simp [Prod.mk.injEq] at h
  | cons f fs ih =>
    rcases hf : f s with ⟨s2, e2⟩
    cases e2 with
    | none =>
      rw [run_cons_ok hf] at h
      have h2 := ih (fun g hg s0 => hpres g (List.mem_cons_of_mem f hg) s0) h
      rw [h2]
      have h3 := hpres f (List.mem_cons_self f fs) s
      rw [hf] at h3
      exact h3
    | some e2 =>
      rw [run_cons_err hf] at h
      injection h with h1 h2
      subst h1
      have h3 := hpres f (List.mem_cons_self f fs) s
      rw [hf] at h3
      exact h3

/-- C3: the orchestrator threads each stage's output into the next stage,
aborts on the first stage failure propagating the error unmodified, writes
no status on failure (for the standard pipeline), and marks the context
`status = SUCCESS` exactly on full success. -/
theorem pipeline_run_spec :
    (∀ (f : StageFn) (fs : List StageFn) (s s2 : State),
      f s = (s2, none) → Pipeline.run (f :: fs) s = Pipeline.run fs s2) ∧
    (∀ (f : StageFn) (fs : List StageFn) (s s2 : State) (e : Err),
      f s = (s2, some e) → Pipeline.run (f :: fs) s = (s2, some e)) ∧
    (∀ (fs : List StageFn) (s out : State),
      Pipeline.run fs s = (out, none) → out.ctx.status = some "SUCCESS") ∧
    (∀ (users_db : String → Option Profile) (svc : FxService) (path : String)
      (s out : State) (e : Err), s.ctx.status = none →
      runStandard users_db svc path s = (out, some e) →
      out.ctx.status = none) := by
  refine ⟨?_, ?_, ?_, ?_⟩
  · intro f fs s s2 h
    exact run_cons_ok h
  · intro f fs s s2 e h
    exact run_cons_err h
  · intro fs s out h
    exact run_success_status h
  · intro users_db svc path s out e h0 h
    have hpres : ∀ f ∈ standardFilters users_db svc path,
        ∀ s0 : State, ((f s0).1).ctx.status = s0.ctx.status := by
      intro f hf s0
      simp [standardFilters] at hf
      rcases hf with rfl | rfl | rfl | rfl | rfl
      · exact validation_preserves_status s0
      · exact auth_preserves_status users_db s0
      · exact transformation_preserves_status svc s0
      · exact fee_preserves_status svc s0
      · exact storage_preserves_status path s0
    rw [run_err_preserves_status hpres h, h0]

theorem pipeline_run_spec_witness :
    Pipeline.run (standardFilters USERS {} "t.json")
        ⟨{ transaction := some ⟨"u456", some (15/1000), "USD"⟩ },
          Store.missing⟩ =
      ((Pipeline.run (standardFilters USERS {} "t.json")
          ⟨{ transaction := some ⟨"u456", some (15/1000), "USD"⟩ },
            Store.missing⟩).1, none) ∧
    ((Pipeline.run (standardFilters USERS {} "t.json")
        ⟨{ transaction := some ⟨"u456", some (15/1000), "USD"⟩ },
          Store.missing⟩).1).ctx.status = some "SUCCESS" :=
  ⟨by decide,
   pipeline_run_spec.2.2.1 (standardFilters USERS {} "t.json")
     ⟨{ transaction := some ⟨"u456", some (15/1000), "USD"⟩ }, Store.missing⟩
     (Pipeline.run (standardFilters USERS {} "t.json")
       ⟨{ transaction := some ⟨"u456", some (15/1000), "USD"⟩ },
         Store.missing⟩).1 (by decide)⟩

theorem validation_eq_emptyUser (s : State) (tx : Transaction)
    (ht : s.ctx.transaction = some tx) (hu : tx.user_id = "") :
    ValidationFilter.process s = (s, some Err.invalidUser) := by
  simp [ValidationFilter.process, ht, hu]

theorem validation_eq_noAmount (s : State) (tx : Transaction)
    (ht : s.ctx.transaction = some tx) (hu : tx.user_id ≠ "")
    (ha : tx.btc_amount = none) :
    ValidationFilter.process s = (s, some Err.invalidAmount) := by
  simp [ValidationFilter.process, ht, hu, ha]

theorem validation_eq_nonpos (s : State) (tx : Transaction) (a : ℚ)
    (ht : s.ctx.transaction = some tx) (hu : tx.user_id ≠ "")
    (ha : tx.btc_amount = some a) (hle : a ≤ 0) :
    ValidationFilter.process s = (s, some Err.invalidAmount) := by
  simp [ValidationFilter.process, ht, hu, ha, hle]

theorem validation_eq_badCurrency (s : State) (tx : Transaction) (a : ℚ)
    (ht : s.ctx.transaction = some tx) (hu : tx.user_id ≠ "")
    (ha : tx.btc_amount = some a) (hpos : 0 < a)
    (hcur : pyStrip (pyUpper tx.base_currency) ∉ ValidationFilter.SUPPORTED) :
    ValidationFilter.process s =
      ({ s with ctx := { s.ctx with
          transaction :=
            some { tx with
              base_currency := pyStrip (pyUpper tx.base_currency) } } },
       some (Err.unsupportedCurrency (pyStrip (pyUpper tx.base_currency)))) := by
  simp [ValidationFilter.process, ht, hu, ha, not_le.mpr hpos, hcur]

theorem validation_eq_ok (s : State) (tx : Transaction) (a : ℚ)
    (ht : s.ctx.transaction = some tx) (hu : tx.user_id ≠ "")
    (ha : tx.btc_amount = some a) (hpos : 0 < a)
    (hcur : pyStrip (pyUpper tx.base_currency) ∈ ValidationFilter.SUPPORTED) :
    ValidationFilter.process s =
      ({ s with ctx := { s.ctx with
          transaction :=
            some { tx with
              base_currency := pyStrip (pyUpper tx.base_currency) },
          validated_at := some () } }, none) := by
  simp [ValidationFilter.process, ht, hu, ha, not_le.mpr hpos, hcur]

theorem auth_eq_absent (users_db : String → Option Profile) (s : State)
    (tx : Transaction) (ht : s.ctx.transaction = some tx)
    (hdb : users_db tx.user_id = none) :
    AuthFilter.process users_db s = (s, some Err.notAuthenticated) := by
  simp [AuthFilter.process, ht, hdb]

theorem auth_eq_ok (users_db : String → Option Profile) (s : State)
    (tx : Transaction) (p : Profile) (ht : s.ctx.transaction = some tx)
    (hdb : users_db tx.user_id = some p) (hp : p ≠ []) :
    AuthFilter.process users_db s =
      ({ s with ctx := { s.ctx with
          user := some p,
          authenticated_at := some () } }, none) := by
  simp [AuthFilter.process, ht, hdb, hp]

/-- The engine's result for a supported currency, phrased with the spec's
rate table `appliedRate`. -/
theorem fx_applied (svc : FxService) (a : ℚ) (c : String)
    (hc : c ∈ ValidationFilter.SUPPORTED) :
    svc.btc_to_currency a c =
      Except.ok ⟨a * svc.btc_usd * appliedRate svc c, appliedRate svc c⟩ := by
  rcases (by simpa [ValidationFilter.SUPPORTED] using hc : c = "USD" ∨
      c = "EUR" ∨ c = "GBP") with h | h | h <;>
    simp [FxService.btc_to_currency, appliedRate, h, mul_one]

theorem transformation_eq_ok (svc : FxService) (s : State) (tx : Transaction)
    (a : ℚ) (r : FxResult) (ht : s.ctx.transaction = some tx)
    (ha : tx.btc_amount = some a)
    (hr : svc.btc_to_currency a tx.base_currency = Except.ok r) :
    TransformationFilter.process svc s =
      ({ s with ctx := { s.ctx with
          fiat_amount := some (round2 r.amount),
          fx_used := some ⟨svc.btc_usd, svc.usd_to_eur, svc.usd_to_gbp, r.fx⟩,
          transformed_at := some () } }, none) := by
  simp [TransformationFilter.process, ht, ha, hr]

theorem fee_eq_ok (svc : FxService) (s : State) (tx : Transaction) (v : ℚ)
    (ht : s.ctx.transaction = some tx) (hv : s.ctx.fiat_amount = some v)
    (hcur : tx.base_currency ∈ ValidationFilter.SUPPORTED) :
    FeeFilter.process svc s =
      ({ s with ctx := { s.ctx with
          fee := some (round2 (5 * appliedRate svc tx.base_currency)),
          total := some
            (round2 (v + round2 (5 * appliedRate svc tx.base_currency))),
          fee_calculated_at := some () } }, none) := by
  rcases (by simpa [ValidationFilter.SUPPORTED] using hcur :
      tx.base_currency = "USD" ∨ tx.base_currency = "EUR" ∨
      tx.base_currency = "GBP") with h | h | h <;>
    simp [FeeFilter.process, FeeFilter.FIXED_FEE_USD, appliedRate, ht, hv, h,
      mul_one]

theorem storage_eq_ok (path : String) (s : State) (tx : Transaction)
    (ht : s.ctx.transaction = some tx) :
    StorageFilter.process path s =
      ({ ctx := { s.ctx with
            persisted := some true,
            storage_path := some path },
         store := Store.records
           (StorageFilter.readExisting s.store ++
             [StorageFilter.mkRecord s.ctx tx]) }, none) := by
  simp [StorageFilter.process, ht]

theorem validation_preserves_store (s : State) :
    ((ValidationFilter.process s).1).store = s.store := by
  rcases ht : s.ctx.transaction with _ | tx
  · simp [ValidationFilter.process, ht]
  · by_cases hu : tx.user_id = ""
    · simp [ValidationFilter.process, ht, hu]
    · rcases ha : tx.btc_amount with _ | a
      · simp [ValidationFilter.process, ht, hu, ha]
      · by_cases hle : a ≤ 0
        · simp [ValidationFilter.process, ht, hu, ha, hle]
        · by_cases hcur :
              pyStrip (pyUpper tx.base_currency) ∈ ValidationFilter.SUPPORTED
          · simp [ValidationFilter.process, ht, hu, ha, hle, hcur]
          · simp [ValidationFilter.process, ht, hu, ha, hle, hcur]

theorem auth_preserves_store (users_db : String → Option Profile)
    (s : State) :
    ((AuthFilter.process users_db s).1).store = s.store := by
  rcases ht : s.ctx.transaction with _ | tx
  · simp [AuthFilter.process, ht]
  · rcases hdb : users_db tx.user_id with _ | p
    · simp [AuthFilter.process, ht, hdb]
    · by_cases hp : p = []
      · simp [AuthFilter.process, ht, hdb, hp]
      · simp [AuthFilter.process, ht, hdb, hp]

theorem transformation_preserves_store (svc : FxService) (s : State) :
    ((TransformationFilter.process svc s).1).store = s.store := by
  rcases ht : s.ctx.transaction with _ | tx
  · simp [TransformationFilter.process, ht]
  · rcases ha : tx.btc_amount with _ | a
    · simp [TransformationFilter.process, ht, ha]
    · rcases hr : svc.btc_to_currency a tx.base_currency with e | r
      · simp [TransformationFilter.process, ht, ha, hr]
      · simp [TransformationFilter.process, ht, ha, hr]

theorem fee_preserves_store (svc : FxService) (s : State) :
    ((FeeFilter.process svc s).1).store = s.store := by
  rcases ht : s.ctx.transaction with _ | tx
  · simp [FeeFilter.process, ht]
  · by_cases h1 : tx.base_currency = "USD" <;>
      by_cases h2 : tx.base_currency = "EUR" <;>
      by_cases h3 : tx.base_currency = "GBP" <;>
      rcases hv : s.ctx.fiat_amount with _ | v <;>
      simp [FeeFilter.process, ht, h1, h2, h3, hv]

theorem storage_success_store {path : String} {s out : State}
    (h : StorageFilter.process path s = (out, none)) :
    ∃ rec, out.store =
      Store.records (StorageFilter.readExisting s.store ++ [rec]) := by
  rcases ht : s.ctx.transaction with _ | tx
  · rw [StorageFilter.process] at h
    simp [ht] at h
  · rw [storage_eq_ok path s tx ht] at h
    injection h with h1 h2
    exact ⟨StorageFilter.mkRecord s.ctx tx, by rw [← h1]⟩

/-- One successful standard run appends exactly one record to the store. -/
theorem runStandard_success_store {users_db : String → Option Profile}
    {svc : FxService} {path : String} {s out : State}
    (h : runStandard users_db svc path s = (out, none)) :
    ∃ rec, out.store =
      Store.records (StorageFilter.readExisting s.store ++ [rec]) := by
  unfold runStandard standardFilters at h
  obtain ⟨s1, h1, h⟩ := run_success_decomp h
  obtain ⟨s2, h2, h⟩ := run_success_decomp h
  obtain ⟨s3, h3, h⟩ := run_success_decomp h
  obtain ⟨s4, h4, h⟩ := run_success_decomp h
  obtain ⟨s5, h5, h⟩ := run_success_decomp h
  rw [run_nil] at h
  injection h with hout _
  have e1 : s1.store = s.store := by
    have := validation_preserves_store s
    rw [h1] at this
    exact this
  have e2 : s2.store = s1.store := by
    have := auth_preserves_store users_db s1
    rw [h2] at this
    exact this
  have e3 : s3.store = s2.store := by
    have := transformation_preserves_store svc s2
    rw [h3] at this
    exact this
  have e4 : s4.store = s3.store := by
    have := fee_preserves_store svc s3
    rw [h4] at this
    exact this
  obtain ⟨rec, hrec⟩ := storage_success_store h5
  refine ⟨rec, ?_⟩
  rw [← hout]
  show s5.store = _
  rw [hrec, e4, e3, e2, e1]

/-- Composition of a fully successful standard run from the per-stage
success equations. -/
theorem runStandard_eq (users_db : String → Option Profile) (svc : FxService)
    (path : String) {s s1 s2 s3 s4 s5 : State}
    (h1 : ValidationFilter.process s = (s1, none))
    (h2 : AuthFilter.process users_db s1 = (s2, none))
    (h3 : TransformationFilter.process svc s2 = (s3, none))
    (h4 : FeeFilter.process svc s3 = (s4, none))
    (h5 : StorageFilter.process path s4 = (s5, none)) :
    runStandard users_db svc path s =
      ({ s5 with ctx := { s5.ctx with status := some "SUCCESS" } }, none) := by
  unfold runStandard standardFilters
  rw [run_cons_ok h1, run_cons_ok h2, run_cons_ok h3, run_cons_ok h4,
    run_cons_ok h5, run_nil]

/-- C7: a non-positive amount or an out-of-set normalized currency makes the
standard run fail inside the validation stage: the run's outcome is exactly
validation's failure, and the authentication stage never touches the
context. -/
theorem invalid_tx_fails_before_auth (users_db : String → Option Profile)
    (svc : FxService) (path : String) (s : State) (tx : Transaction)
    (ht : s.ctx.transaction = some tx)
    (hbad : (∃ a, tx.btc_amount = some a ∧ a ≤ 0) ∨
      pyStrip (pyUpper tx.base_currency) ∉ ValidationFilter.SUPPORTED) :
    ∃ s2 e, ValidationFilter.process s = (s2, some e) ∧
      runStandard users_db svc path s = (s2, some e) ∧
      s2.ctx.user = s.ctx.user ∧
      s2.ctx.authenticated_at = s.ctx.authenticated_at := by
  have hfail : ∃ s2 e, ValidationFilter.process s = (s2, some e) ∧
      s2.ctx.user = s.ctx.user ∧
      s2.ctx.authenticated_at = s.ctx.authenticated_at := by
    by_cases hu : tx.user_id = ""
    · exact ⟨s, Err.invalidUser, validation_eq_emptyUser s tx ht hu, rfl, rfl⟩
    · rcases ha : tx.btc_amount with _ | a
      · exact ⟨s, Err.invalidAmount, validation_eq_noAmount s tx ht hu ha,
          rfl, rfl⟩
      · by_cases hle : a ≤ 0
        · exact ⟨s, Err.invalidAmount,
            validation_eq_nonpos s tx a ht hu ha hle, rfl, rfl⟩
        · have hcur : pyStrip (pyUpper tx.base_currency) ∉
              ValidationFilter.SUPPORTED := by
            rcases hbad with ⟨a2, ha2, hle2⟩ | hcur
            · rw [ha] at ha2
              injection ha2 with ha3
              subst ha3
              exact absurd hle2 hle
            · exact hcur
          exact ⟨_, _,
            validation_eq_badCurrency s tx a ht hu ha (not_le.mp hle) hcur,
            rfl, rfl⟩
  obtain ⟨s2, e, hv, hus, has⟩ := hfail
  refine ⟨s2, e, hv, ?_, hus, has⟩
  unfold runStandard standardFilters
  exact run_cons_err hv

theorem invalid_tx_fails_before_auth_witness :
    ∃ s2 e, ValidationFilter.process
        ⟨{ transaction := some ⟨"u123", some (-1), "USD"⟩ }, Store.missing⟩ =
        (s2, some e) ∧
      runStandard USERS {} "t.json"
        ⟨{ transaction := some ⟨"u123", some (-1), "USD"⟩ }, Store.missing⟩ =
        (s2, some e) ∧
      s2.ctx.user =
        (⟨{ transaction := some ⟨"u123", some (-1), "USD"⟩ },
          Store.missing⟩ : State).ctx.user ∧
      s2.ctx.authenticated_at =
        (⟨{ transaction := some ⟨"u123", some (-1), "USD"⟩ },
          Store.missing⟩ : State).ctx.authenticated_at :=
  invalid_tx_fails_before_auth USERS {} "t.json"
    ⟨{ transaction := some ⟨"u123", some (-1), "USD"⟩ }, Store.missing⟩
    ⟨"u123", some (-1), "USD"⟩ rfl (Or.inl ⟨-1, rfl, by decide⟩)

/-- C5: when `user_id` is absent from the directory, a transaction that
passes validation makes the run fail with `NotAuthenticated`; and in every
case the run fails and a context starting without `fiat_amount`, `fee`,
`total` never gains them. -/
theorem absent_user_not_authenticated (users_db : String → Option Profile)
    (svc : FxService) (path : String) (s : State) (tx : Transaction)
    (ht : s.ctx.transaction = some tx)
    (hdb : users_db tx.user_id = none)
    (hfa : s.ctx.fiat_amount = none) (hfe : s.ctx.fee = none)
    (hto : s.ctx.total = none) :
    (∀ a, tx.user_id ≠ "" → tx.btc_amount = some a → 0 < a →
      pyStrip (pyUpper tx.base_currency) ∈ ValidationFilter.SUPPORTED →
      ∃ s2, runStandard users_db svc path s = (s2, some Err.notAuthenticated) ∧
        s2.ctx.fiat_amount = none ∧ s2.ctx.fee = none ∧
        s2.ctx.total = none) ∧
    (∃ s2 e, runStandard users_db svc path s = (s2, some e) ∧
      s2.ctx.fiat_amount = none ∧ s2.ctx.fee = none ∧ s2.ctx.total = none) := by
  constructor
  · intro a hu ha hpos hcur
    have hv := validation_eq_ok s tx a ht hu ha hpos hcur
    have hrun : runStandard users_db svc path s =
        ({ s with ctx := { s.ctx with
            transaction :=
              some { tx with
                base_currency := pyStrip (pyUpper tx.base_currency) },
            validated_at := some () } }, some Err.notAuthenticated) := by
      unfold runStandard standardFilters
      rw [run_cons_ok hv]
      exact run_cons_err (auth_eq_absent users_db _ _ rfl hdb)
    exact ⟨_, hrun, hfa, hfe, hto⟩
  · by_cases hu : tx.user_id = ""
    · have hrun : runStandard users_db svc path s = (s, some Err.invalidUser) := by
        unfold runStandard standardFilters
        exact run_cons_err (validation_eq_emptyUser s tx ht hu)
      exact ⟨s, Err.invalidUser, hrun, hfa, hfe, hto⟩
    · rcases ha : tx.btc_amount with _ | a
      · have hrun : runStandard users_db svc path s =
            (s, some Err.invalidAmount) := by
          unfold runStandard standardFilters
          exact run_cons_err (validation_eq_noAmount s tx ht hu ha)
        exact ⟨s, Err.invalidAmount, hrun, hfa, hfe, hto⟩
      · by_cases hle : a ≤ 0
        · have hrun : runStandard users_db svc path s =
              (s, some Err.invalidAmount) := by
            unfold runStandard standardFilters
            exact run_cons_err (validation_eq_nonpos s tx a ht hu ha hle)
          exact ⟨s, Err.invalidAmount, hrun, hfa, hfe, hto⟩
        · by_cases hcur : pyStrip (pyUpper tx.base_currency) ∈
              ValidationFilter.SUPPORTED
          · have hv := validation_eq_ok s tx a ht hu ha (not_le.mp hle) hcur
            have hrun : runStandard users_db svc path s =
                ({ s with ctx := { s.ctx with
                    transaction :=
                      some { tx with
                        base_currency := pyStrip (pyUpper tx.base_currency) },
                    validated_at := some () } },
                  some Err.notAuthenticated) := by
              unfold runStandard standardFilters
              rw [run_cons_ok hv]
              exact run_cons_err (auth_eq_absent users_db _ _ rfl hdb)
            exact ⟨_, Err.notAuthenticated, hrun, hfa, hfe, hto⟩
          · have hv := validation_eq_badCurrency s tx a ht hu ha
              (not_le.mp hle) hcur
            have hrun : runStandard users_db svc path s =
                ({ s with ctx := { s.ctx with
                    transaction :=
                      some { tx with
                        base_currency :=
                          pyStrip (pyUpper tx.base_currency) } } },
                  some (Err.unsupportedCurrency
                    (pyStrip (pyUpper tx.base_currency)))) := by
              unfold runStandard standardFilters
              exact run_cons_err hv
            exact ⟨_, _, hrun, hfa, hfe, hto⟩

theorem absent_user_not_authenticated_witness :
    ∃ s2, runStandard USERS {} "t.json"
        ⟨{ transaction := some ⟨"ghost", some 1, "USD"⟩ }, Store.missing⟩ =
        (s2, some Err.notAuthenticated) ∧
      s2.ctx.fiat_amount = none ∧ s2.ctx.fee = none ∧ s2.ctx.total = none :=
  (absent_user_not_authenticated USERS {} "t.json"
      ⟨{ transaction := some ⟨"ghost", some 1, "USD"⟩ }, Store.missing⟩
      ⟨"ghost", some 1, "USD"⟩ rfl rfl rfl rfl rfl).1
    1 (by decide) rfl (by decide) (by decide)

/-- C1: for a valid, authenticated transaction in a supported currency, the
run succeeds with `fee = round2 (5 × applied_rate)` and
`total = round2 (fiat_amount + fee) = fiat_amount + fee` exactly. -/
theorem pipeline_money_exact (users_db : String → Option Profile)
    (svc : FxService) (path : String) (s : State) (tx : Transaction)
    (a : ℚ) (p : Profile)
    (ht : s.ctx.transaction = some tx) (hu : tx.user_id ≠ "")
    (ha : tx.btc_amount = some a) (hpos : 0 < a)
    (hcur : tx.base_currency ∈ ValidationFilter.SUPPORTED)
    (hdb : users_db tx.user_id = some p) (hp : p ≠ []) :
    ∃ fiat fee,
      (runStandard users_db svc path s).2 = none ∧
      (runStandard users_db svc path s).1.ctx.fiat_amount = some fiat ∧
      (runStandard users_db svc path s).1.ctx.fee = some fee ∧
      fee = round2 (5 * appliedRate svc tx.base_currency) ∧
      (runStandard users_db svc path s).1.ctx.total =
        some (round2 (fiat + fee)) ∧
      round2 (fiat + fee) = fiat + fee := by
  have hnorm : pyStrip (pyUpper tx.base_currency) = tx.base_currency := by
    rcases (by simpa [ValidationFilter.SUPPORTED] using hcur :
        tx.base_currency = "USD" ∨ tx.base_currency = "EUR" ∨
        tx.base_currency = "GBP") with h | h | h <;> rw [h] <;> decide
  have hcur2 : pyStrip (pyUpper tx.base_currency) ∈
      ValidationFilter.SUPPORTED := by
    rw [hnorm]
    exact hcur
  have h1 := validation_eq_ok s tx a ht hu ha hpos hcur2
  rw [hnorm] at h1
  have h1e : ValidationFilter.process s =
      ({ s with ctx := { s.ctx with
          transaction := some tx,
          validated_at := some () } }, none) := h1
  have h2 := auth_eq_ok users_db
    ({ s with ctx := { s.ctx with
        transaction := some tx,
        validated_at := some () } }) tx p rfl hdb hp
  have hr := fx_applied svc a tx.base_currency hcur
  have h3 := transformation_eq_ok svc
    ({ s with ctx := { s.ctx with
        transaction := some tx,
        validated_at := some (),
        user := some p,
        authenticated_at := some () } }) tx a
    ⟨a * svc.btc_usd * appliedRate svc tx.base_currency,
      appliedRate svc tx.base_currency⟩ rfl ha hr
  have h4 := fee_eq_ok svc
    ({ s with ctx := { s.ctx with
        transaction := some tx,
        validated_at := some (),
        user := some p,
        authenticated_at := some (),
        fiat_amount :=
          some (round2 (a * svc.btc_usd * appliedRate svc tx.base_currency)),
        fx_used := some ⟨svc.btc_usd, svc.usd_to_eur, svc.usd_to_gbp,
          appliedRate svc tx.base_currency⟩,
        transformed_at := some () } }) tx
    (round2 (a * svc.btc_usd * appliedRate svc tx.base_currency))
    rfl rfl hcur
  have h5 := storage_eq_ok path
    ({ s with ctx := { s.ctx with
        transaction := some tx,
        validated_at := some (),
        user := some p,
        authenticated_at := some (),
        fiat_amount :=
          some (round2 (a * svc.btc_usd * appliedRate svc tx.base_currency)),
        fx_used := some ⟨svc.btc_usd, svc.usd_to_eur, svc.usd_to_gbp,
          appliedRate svc tx.base_currency⟩,
        transformed_at := some (),
        fee := some (round2 (5 * appliedRate svc tx.base_currency)),
        total := some (round2
          (round2 (a * svc.btc_usd * appliedRate svc tx.base_currency) +
            round2 (5 * appliedRate svc tx.base_currency))),
        fee_calculated_at := some () } }) tx rfl
  have hrun := runStandard_eq users_db svc path h1e h2 h3 h4 h5
  refine ⟨round2 (a * svc.btc_usd * appliedRate svc tx.base_currency),
    round2 (5 * appliedRate svc tx.base_currency),
    ?_, ?_, ?_, rfl, ?_, round2_add_rounded _ _⟩ <;> rw [hrun]

theorem pipeline_money_exact_witness :
    ∃ fiat fee,
      (runStandard USERS {} "t.json"
        ⟨{ transaction := some ⟨"u456", some (15/1000), "USD"⟩ },
          Store.missing⟩).2 = none ∧
      (runStandard USERS {} "t.json"
        ⟨{ transaction := some ⟨"u456", some (15/1000), "USD"⟩ },
          Store.missing⟩).1.ctx.fiat_amount = some fiat ∧
      (runStandard USERS {} "t.json"
        ⟨{ transaction := some ⟨"u456", some (15/1000), "USD"⟩ },
          Store.missing⟩).1.ctx.fee = some fee ∧
      fee = round2 (5 * appliedRate {} "USD") ∧
      (runStandard USERS {} "t.json"
        ⟨{ transaction := some ⟨"u456", some (15/1000), "USD"⟩ },
          Store.missing⟩).1.ctx.total = some (round2 (fiat + fee)) ∧
      round2 (fiat + fee) = fiat + fee :=
  pipeline_money_exact USERS {} "t.json"
    ⟨{ transaction := some ⟨"u456", some (15/1000), "USD"⟩ }, Store.missing⟩
    ⟨"u456", some (15/1000), "USD"⟩ (15/1000)
    [("name", "Bob"), ("kyc_level", "plus")]
    rfl (by decide) rfl (by decide) (by decide) rfl (by decide)

/-- C8: starting from a store holding `l0`, a sequence of successful runs
appends one record per run, in run order, leaving every earlier record
unchanged; from an empty sink, N successful runs leave exactly N records. -/
theorem persistence_appends_in_order (users_db : String → Option Profile)
    (svc : FxService) (path : String) (ctxs : List Ctx)
    (l0 : List LedgerRecord)
    (h : allOk users_db svc path ctxs (Store.records l0) = true) :
    ∃ rs, rs.length = ctxs.length ∧
      runSeq users_db svc path ctxs (Store.records l0) =
        Store.records (l0 ++ rs) := by
  induction ctxs generalizing l0 with
  | nil => exact ⟨[], rfl, by simp [runSeq]⟩
  | cons c cs ih =>
    rcases hr : runStandard users_db svc path ⟨c, Store.records l0⟩
      with ⟨s2, e⟩
    cases e with
    | some e =>
      rw [allOk, hr] at h
      simp at h
    | none =>
      have h2 : allOk users_db svc path cs s2.store = true := by
        rw [allOk, hr] at h
        exact h
      obtain ⟨rec, hst⟩ := runStandard_success_store hr
      rw [StorageFilter.readExisting] at hst
      rw [hst] at h2
      obtain ⟨rs2, hlen, hrun⟩ := ih (l0 ++ [rec]) h2
      refine ⟨rec :: rs2, by simp [hlen], ?_⟩
      rw [runSeq, hr]
      show runSeq users_db svc path cs s2.store = _
      rw [hst, hrun]
      simp

theorem persistence_appends_in_order_witness :
    ∃ rs, rs.length =
        ([{ transaction := some ⟨"u123", some 1, "EUR"⟩ },
          { transaction := some ⟨"u456", some 2, "USD"⟩ }] :
            List Ctx).length ∧
      runSeq USERS {} "t.json"
        [{ transaction := some ⟨"u123", some 1, "EUR"⟩ },
         { transaction := some ⟨"u456", some 2, "USD"⟩ }]
        (Store.records []) = Store.records ([] ++ rs) :=
  persistence_appends_in_order USERS {} "t.json"
    [{ transaction := some ⟨"u123", some 1, "EUR"⟩ },
     { transaction := some ⟨"u456", some 2, "USD"⟩ }] [] (by decide)

end BtcPipeline
